import Mathlib

set_option maxHeartbeats 1000000

/-!
Verification development for the cloudflare-worker-image-proxy-wasm repository.

The repository ships two copies of the request pipeline:
- a modular variant: src/index.ts, src/validation.ts, src/image-processing.ts,
  utils.ts, types.ts (namespaces Index, Validation, ImageProcessing, Utils below);
- a legacy single-file worker duplicating the same functions (namespace Legacy).

JS machine numbers are modelled as exact rationals (floating-point rounding is
not modelled), JS strings as Lean strings. Platform collaborators (the WHATWG
URL parser, JS string/number primitives, the photon WASM codec, the edge cache,
outbound fetch) are modelled explicitly; the codec is instrumented with a call
log and a live-handle list so that resource-lifetime claims are statable.

String primitives are re-implemented structurally over the character list so
that every definition evaluates by kernel reduction.
-/

/-! ### JS string primitives (models of the platform string operations) -/

/-- If sep is a prefix of l, return the remainder of l after it. -/
def takeDropPrefixAux : List Char → List Char → Option (List Char)
  | [], l => some l
  | _ :: _, [] => none
  | s :: ss, c :: cs => if s = c then takeDropPrefixAux ss cs else none

/-- Fuel-indexed splitter on a (nonempty) separator. -/
def splitOnAux (sep : List Char) : Nat → List Char → List Char → List (List Char)
  | 0, _, acc => [acc.reverse]
  | _ + 1, [], acc => [acc.reverse]
  | fuel + 1, c :: cs, acc =>
    match takeDropPrefixAux sep (c :: cs) with
    | some rest => acc.reverse :: splitOnAux sep fuel rest []
    | none => splitOnAux sep fuel cs (c :: acc)

/-- Model of the JS String.prototype.split with a nonempty string separator. -/
def strSplitOn (s sep : String) : List String :=
  (splitOnAux sep.data s.data.length s.data []).map (fun l => ⟨l⟩)

/-- Model of JS String.prototype.trim. -/
def strTrim (s : String) : String :=
  ⟨((s.data.dropWhile Char.isWhitespace).reverse.dropWhile Char.isWhitespace).reverse⟩

/-- Model of JS String.prototype.startsWith. -/
def strStartsWith (s p : String) : Bool := p.data.isPrefixOf s.data

/-- Model of JS String.prototype.endsWith. -/
def strEndsWith (s p : String) : Bool := p.data.reverse.isPrefixOf s.data.reverse

/-- Model of JS String.prototype.substring(n) on ASCII data: drop n characters. -/
def strDrop (s : String) (n : Nat) : String := ⟨s.data.drop n⟩

/-- Model of JS String.prototype.toLowerCase restricted to ASCII case mapping. -/
def strLower (s : String) : String := ⟨s.data.map Char.toLower⟩

/-- Whether the string is empty. -/
def strIsEmpty (s : String) : Bool := s.data.isEmpty

/-- Model of JS String.prototype.includes: s contains sub as a substring. -/
def strIncludes (s sub : String) : Bool :=
  decide ((splitOnAux sub.data s.data.length s.data []).length > 1)

/-- Numeric value of a string of decimal digits. -/
def digitsVal (l : List Char) : Nat := l.foldl (fun acc c => acc * 10 + (c.toNat - 48)) 0

/-- Model of JS parseInt(s, 10): trim, optional sign, longest leading run of
decimal digits; NaN (none) when there is no digit. -/
def jsParseInt (s : String) : Option Int :=
  let t := strTrim s
  let neg := strStartsWith t "-"
  let rest := if strStartsWith t "-" || strStartsWith t "+" then strDrop t 1 else t
  let digits := rest.data.takeWhile Char.isDigit
  if digits.isEmpty then none
  else if neg then some (-(digitsVal digits : Int)) else some (digitsVal digits : Int)

/-- Model of JS Number(s) (the ToNumber coercion) restricted to the fragment
exercised by this code: trimmed empty string is 0, an optional sign followed
by decimal digits is the signed value, anything else is NaN (none).
Fractional, exponent and hex literals are outside the modelled fragment. -/
def jsNumberOfString (s : String) : Option ℚ :=
  let t := strTrim s
  if strIsEmpty t then some 0
  else
    let neg := strStartsWith t "-"
    let rest := if strStartsWith t "-" || strStartsWith t "+" then strDrop t 1 else t
    if !strIsEmpty rest && rest.data.all Char.isDigit then
      if neg then some ((-(digitsVal rest.data : Int) : Int) : ℚ)
      else some (((digitsVal rest.data : Int) : Int) : ℚ)
    else none

deriving instance DecidableEq for Except

/-! ### HTTP data model -/

/-- JS Headers object: a list of name/value pairs; lookup is case-insensitive. -/
abbrev Headers := List (String × String)

/-- Headers.get: case-insensitive lookup of the first matching header. -/
def hGet (h : Headers) (name : String) : Option String :=
  (h.find? (fun p => strLower p.1 == strLower name)).map Prod.snd

/-- Headers.set: replace any existing value for the (case-insensitive) name. -/
def hSet (h : Headers) (name value : String) : Headers :=
  (name, value) :: h.filter (fun p => strLower p.1 != strLower name)

/-- A JS Response body: absent, a text body, or raw bytes. -/
inductive Body where
  | empty : Body
  | text (s : String) : Body
  | bytes (bs : List Nat) : Body
deriving DecidableEq

/-- JS Response: status, statusText, headers, body. -/
structure Response where
  status : Nat
  statusText : String
  headers : Headers
  body : Body
deriving DecidableEq

/-- JS Response.ok: status in the range 200..299. -/
def respOk (r : Response) : Bool :=
  decide (200 ≤ r.status) && decide (r.status ≤ 299)

/-- JS Request: method, url and headers (the body is never read by this code). -/
structure Request where
  method : String
  url : String
  headers : Headers
deriving DecidableEq

/-- The HttpError class from types.ts: message plus HTTP status. -/
structure HttpErr where
  message : String
  status : Nat
deriving DecidableEq

/-- The format field of ImageProxyOptions. -/
inductive ImageFormat where
  | webp | jpeg | png | auto
deriving DecidableEq

/-- A concrete output encoding (the result of format negotiation). -/
inductive OutputFormat where
  | webp | jpeg | png
deriving DecidableEq

/-- The string used in the Content-Type header for an output format. -/
def outputFormatStr : OutputFormat → String
  | .webp => "webp"
  | .jpeg => "jpeg"
  | .png => "png"

/-- ImageProxyOptions from types.ts: the validated result of parsing an
operations string. -/
structure ImageProxyOptions where
  width : Option Int := none
  height : Option Int := none
  format : ImageFormat := .auto
  quality : Int := 85
  original : Bool := false
deriving DecidableEq

/-- The worker environment: ALLOWED_DOMAINS together with MAX_WIDTH and
MAX_HEIGHT already parsed to integers (the source parses the two environment
strings with parseInt each time a schema is created). -/
structure EnvCfg where
  ALLOWED_DOMAINS : List String
  MAX_WIDTH : Int
  MAX_HEIGHT : Int

/-- JS truthiness of an optional number (undefined and 0 are falsy). -/
def jsTruthyQ : Option ℚ → Bool
  | none => false
  | some x => x != 0

/-- JS truthiness of an optional integer option field. -/
def jsTruthyInt : Option Int → Bool
  | none => false
  | some x => x != 0

/-- The implicit number conversion when an integer option field is passed to
calculateDimensions. -/
def optQ : Option Int → Option ℚ
  | none => none
  | some n => some ((n : Int) : ℚ)

/-- Math.round on the nonnegative numbers used here: floor of x + 1/2
(JS rounds half toward positive infinity). -/
def jsRound (x : ℚ) : ℚ := ((⌊x + 1/2⌋ : Int) : ℚ)

/-! ### The URL platform collaborator -/

/-- The parts of a parsed URL that this code reads. -/
structure URLParts where
  hostname : String
  pathname : String
deriving DecidableEq

/-- Simplified model of the platform WHATWG URL parser on absolute URLs of the
shape scheme://[userinfo@]host[:port][/path][?query][#fragment]: a nonempty
scheme before the first ://, a nonempty host, the pathname defaulting to /.
Unparseable input is none (new URL throws). -/
def parseURL (s : String) : Option URLParts :=
  match strSplitOn s "://" with
  | scheme :: r1 :: rs =>
    if strIsEmpty scheme then none
    else
      let rest := String.intercalate "://" (r1 :: rs)
      let authority : String := ⟨rest.data.takeWhile (fun c => c ≠ '/' ∧ c ≠ '?' ∧ c ≠ '#')⟩
      let pathAndMore : String := ⟨rest.data.drop authority.data.length⟩
      let hostPort : String :=
        match (strSplitOn authority "@").reverse with
        | h :: _ => h
        | [] => authority
      let hostname : String :=
        match strSplitOn hostPort ":" with
        | h :: _ => h
        | [] => hostPort
      if strIsEmpty hostname then none
      else
        let path : String := ⟨pathAndMore.data.takeWhile (fun c => c ≠ '?' ∧ c ≠ '#')⟩
        some ⟨hostname, if strIsEmpty path then "/" else path⟩
  | _ => none

/-! ### The instrumented photon codec collaborator -/

/-- A decoded photon image handle: identity plus its dimensions. -/
structure Img where
  id : Nat
  width : ℚ
  height : ℚ
deriving DecidableEq

/-- One request's codec behaviour: whether decode succeeds and the decoded
dimensions, whether resize and encode succeed. -/
structure CodecScenario where
  decodeOk : Bool
  srcWidth : ℚ
  srcHeight : ℚ
  resizeOk : Bool
  encodeOk : Bool
deriving DecidableEq

/-- Instrumentation state of the codec: next fresh handle id, handles created
and not yet freed, and the log of codec calls. -/
structure CodecState where
  nextId : Nat
  live : List Nat
  log : List String
deriving DecidableEq

/-- The initial codec state. -/
def csInit : CodecState := ⟨0, [], []⟩

/-- PhotonImage.new_from_byteslice: decode bytes; throws on failure. -/
def ph_decode (sc : CodecScenario) (cs : CodecState) :
    (Except Unit Img) × CodecState :=
  let cs := { cs with log := cs.log ++ ["new_from_byteslice"] }
  if sc.decodeOk then
    (.ok ⟨cs.nextId, sc.srcWidth, sc.srcHeight⟩,
      { cs with nextId := cs.nextId + 1, live := cs.live ++ [cs.nextId] })
  else (.error (), cs)

/-- photon resize: produce a new decoded image with the given dimensions. -/
def ph_resize (sc : CodecScenario) (_image : Img) (w h : ℚ) (cs : CodecState) :
    (Except Unit Img) × CodecState :=
  let cs := { cs with log := cs.log ++ ["resize"] }
  if sc.resizeOk then
    (.ok ⟨cs.nextId, w, h⟩,
      { cs with nextId := cs.nextId + 1, live := cs.live ++ [cs.nextId] })
  else (.error (), cs)

/-- PhotonImage.free: release a decoded image. -/
def ph_free (image : Img) (cs : CodecState) : CodecState :=
  { cs with log := cs.log ++ ["free"], live := cs.live.erase image.id }

/-- PhotonImage.get_bytes_webp. -/
def ph_get_bytes_webp (sc : CodecScenario) (_image : Img) (cs : CodecState) :
    (Except Unit (List Nat)) × CodecState :=
  let cs := { cs with log := cs.log ++ ["get_bytes_webp"] }
  if sc.encodeOk then (.ok [], cs) else (.error (), cs)

/-- PhotonImage.get_bytes (PNG). -/
def ph_get_bytes (sc : CodecScenario) (_image : Img) (cs : CodecState) :
    (Except Unit (List Nat)) × CodecState :=
  let cs := { cs with log := cs.log ++ ["get_bytes"] }
  if sc.encodeOk then (.ok [], cs) else (.error (), cs)

/-- PhotonImage.get_bytes_jpeg with a quality argument. -/
def ph_get_bytes_jpeg (sc : CodecScenario) (_image : Img) (_quality : Int)
    (cs : CodecState) : (Except Unit (List Nat)) × CodecState :=
  let cs := { cs with log := cs.log ++ ["get_bytes_jpeg"] }
  if sc.encodeOk then (.ok [], cs) else (.error (), cs)

namespace Utils

/-- calculateDimensions from utils.ts (duplicated verbatim in the legacy file):
embed/fit resize preserving aspect, transliterated from the source including
its JS truthiness tests on the optional targets. -/
def calculateDimensions (originalWidth originalHeight : ℚ)
    (targetWidth targetHeight : Option ℚ) : ℚ × ℚ :=
  if !jsTruthyQ targetWidth && !jsTruthyQ targetHeight then
    (originalWidth, originalHeight)
  else
    let aspect := originalWidth / originalHeight
    if jsTruthyQ targetWidth && jsTruthyQ targetHeight then
      let tw := targetWidth.getD 0
      let th := targetHeight.getD 0
      let targetAspect := tw / th
      if aspect > targetAspect then
        (tw, jsRound (tw / aspect))
      else
        (jsRound (th * aspect), th)
    else if jsTruthyQ targetWidth then
      let tw := targetWidth.getD 0
      (tw, jsRound (tw / aspect))
    else if jsTruthyQ targetHeight then
      let th := targetHeight.getD 0
      (jsRound (th * aspect), th)
    else
      (originalWidth, originalHeight)

/-- determineOutputFormat from utils.ts (duplicated in the legacy file):
an explicit non-auto format wins, otherwise webp when the Accept header
contains the substring image/webp, otherwise jpeg. -/
def determineOutputFormat (requestedFormat : ImageFormat)
    (acceptHeader : Option String) : OutputFormat :=
  match requestedFormat with
  | .webp => .webp
  | .jpeg => .jpeg
  | .png => .png
  | .auto =>
    match acceptHeader with
    | some a => if strIncludes a "image/webp" then .webp else .jpeg
    | none => .jpeg

/-- addCorsHeaders from utils.ts (duplicated in the legacy file): copy the
headers, set the four fixed headers, rebuild the response with the same
status, statusText and body. -/
def addCorsHeaders (response : Response) : Response :=
  let headers := response.headers
  let headers := hSet headers "Access-Control-Allow-Origin" "*"
  let headers := hSet headers "Access-Control-Allow-Methods" "GET, OPTIONS"
  let headers := hSet headers "Access-Control-Allow-Headers" "Content-Type"
  let headers := hSet headers "X-Content-Type-Options" "nosniff"
  ⟨response.status, response.statusText, headers, response.body⟩

/-- fetchSourceImage from utils.ts (duplicated in the legacy file): fetch the
source URL forwarding the inbound request headers, reject non-OK upstream
statuses (propagating the status) and non-image content types. -/
def fetchSourceImage (net : String → Headers → Response)
    (sourceUrl : String) (request : Request) : Except HttpErr Response :=
  let sourceResponse := net sourceUrl request.headers
  if !respOk sourceResponse then
    .error ⟨"Failed to fetch source image: " ++ toString sourceResponse.status,
      sourceResponse.status⟩
  else
    let contentType := (hGet sourceResponse.headers "content-type").getD ""
    if !strStartsWith contentType "image/" then
      .error ⟨"Source is not an image", 400⟩
    else
      .ok sourceResponse

end Utils


/-! ### Options parsing: the zod schema and the two tokenizers -/

/-- A JS value stored in the tokenizer's candidate object. -/
inductive JsVal where
  | str (s : String)
  | num (q : ℚ)
  | bool (b : Bool)
deriving DecidableEq

/-- The ToNumber coercion performed by z.coerce.number(): numbers pass
through, strings go through Number(), booleans become 0 or 1; none is NaN. -/
def jsToNumber : JsVal → Option ℚ
  | .str s => jsNumberOfString s
  | .num q => some q
  | .bool b => some (if b then 1 else 0)

/-- The candidate object produced by the tokenizer transform and fed into the
zod object schema. A field set to undefined (possible in the modular
tokenizer) is identified with an absent field, exactly as z.optional and
z.default treat it. -/
structure Candidate where
  width : Option JsVal := none
  height : Option JsVal := none
  format : Option JsVal := none
  quality : Option JsVal := none
  original : Option JsVal := none
deriving DecidableEq

namespace Validation

/-- One dimension field of createImageProxyOptionsSchema:
z.coerce.number().int().positive().max(maxValue). -/
def zDimensionField (v : JsVal) (maxValue : Int) : Except String Int :=
  match jsToNumber v with
  | none => .error "Expected number, received nan"
  | some q =>
    if q.den = 1 then
      if 0 < q.num then
        if q.num ≤ maxValue then .ok q.num
        else .error "Number must be less than or equal to max"
      else .error "Number must be greater than 0"
    else .error "Expected integer, received float"

/-- The quality field: z.coerce.number().int().min(1).max(100).default(85). -/
def zQualityField (v : JsVal) : Except String Int :=
  match jsToNumber v with
  | none => .error "Expected number, received nan"
  | some q =>
    if q.den = 1 then
      if 1 ≤ q.num then
        if q.num ≤ 100 then .ok q.num
        else .error "Number must be less than or equal to 100"
      else .error "Number must be greater than or equal to 1"
    else .error "Expected integer, received float"

/-- createImageProxyOptionsSchema from validation.ts (duplicated in the legacy
file): the structural zod object schema applied to the merged candidate,
with defaults format=auto, quality=85, original=false. -/
def createImageProxyOptionsSchema (env : EnvCfg) (c : Candidate) :
    Except String ImageProxyOptions := do
  let width ← match c.width with
    | none => pure none
    | some v => (zDimensionField v env.MAX_WIDTH).map some
  let height ← match c.height with
    | none => pure none
    | some v => (zDimensionField v env.MAX_HEIGHT).map some
  let format ← match c.format with
    | none => pure ImageFormat.auto
    | some (.str "webp") => pure ImageFormat.webp
    | some (.str "jpeg") => pure ImageFormat.jpeg
    | some (.str "png") => pure ImageFormat.png
    | some (.str "auto") => pure ImageFormat.auto
    | some _ => .error "Invalid enum value"
  let quality ← match c.quality with
    | none => pure (85 : Int)
    | some v => zQualityField v
  let original ← match c.original with
    | none => pure false
    | some (.bool b) => pure b
    | some _ => .error "Expected boolean"
  pure ⟨width, height, format, quality, original⟩

/-- The matcher applied to each normalized allow-list entry inside
validateDomain (the lambda passed to domains.some). -/
def domainEntryMatches (hostname domain : String) : Bool :=
  if strStartsWith domain "*." then
    let baseDomain := strDrop domain 2
    hostname == baseDomain || strEndsWith hostname ("." ++ baseDomain)
  else hostname == domain

/-- validateDomain from validation.ts (duplicated in the legacy file):
parse the URL (unparseable input returns false), normalize the allow-list by
trimming, lower-casing and dropping empty entries; an empty normalized list
allows everything, otherwise some entry must match the lower-cased hostname. -/
def validateDomain (url : String) (allowedDomains : List String) : Bool :=
  match parseURL url with
  | none => false
  | some parsedUrl =>
    let hostname := strLower parsedUrl.hostname
    let domains := (allowedDomains.map (fun d => strLower (strTrim d))).filter
      (fun d => decide (d.data.length > 0))
    if domains.length = 0 then true
    else domains.any (fun domain => domainEntryMatches hostname domain)

/-- The transform stage of createOptionsStringSchema from validation.ts: the
literal underscore means original, otherwise split on commas, split each
trimmed token at underscores into key and value, and store the raw value
string for the recognized keys w, h, f, q (an absent value is undefined,
which overwrites like any assignment and is treated as absent downstream). -/
def optionsTransform (optionsStr : String) : Candidate :=
  if optionsStr == "_" then { original := some (.bool true) }
  else
    (strSplitOn optionsStr ",").foldl (fun candidate part =>
      let trimmed := strTrim part
      let pieces := strSplitOn trimmed "_"
      let key := pieces.headD ""
      let value : Option JsVal := (pieces[1]?).map JsVal.str
      if key == "w" then { candidate with width := value }
      else if key == "h" then { candidate with height := value }
      else if key == "f" then { candidate with format := value }
      else if key == "q" then { candidate with quality := value }
      else candidate) {}

/-- createOptionsStringSchema from validation.ts: the tolerant transform piped
into the structural object schema. -/
def createOptionsStringSchema (env : EnvCfg) (optionsStr : String) :
    Except String ImageProxyOptions :=
  createImageProxyOptionsSchema env (optionsTransform optionsStr)

/-- parseImageProxyOptions from validation.ts: run the schema and convert any
schema failure into HttpError 400. -/
def parseImageProxyOptions (optionsStr : String) (env : EnvCfg) :
    Except HttpErr ImageProxyOptions :=
  match createOptionsStringSchema env optionsStr with
  | .ok o => .ok o
  | .error m => .error ⟨"Invalid options: " ++ m, 400⟩

end Validation

namespace Legacy

/-- The regex match ^(\d+)x(\d+)$ used for the s_WxH token in the legacy
tokenizer: the value must be digits, an x, then digits. -/
def sizeMatch (s : String) : Option (Nat × Nat) :=
  match strSplitOn s "x" with
  | [a, b] =>
    if !strIsEmpty a && !strIsEmpty b
        && a.data.all Char.isDigit && b.data.all Char.isDigit then
      some (digitsVal a.data, digitsVal b.data)
    else none
  | _ => none

/-- The transform stage of the legacy createOptionsStringSchema: per-key
validation with silent drops. Recognizes w_, h_, s_WxH, f_, q_; a value that
fails its own check leaves the candidate unchanged. -/
def optionsTransform (env : EnvCfg) (optionsStr : String) : Candidate :=
  if optionsStr == "_" then { original := some (.bool true) }
  else
    (strSplitOn optionsStr ",").foldl (fun candidate part =>
      let trimmed := strTrim part
      if strStartsWith trimmed "w_" then
        match jsParseInt (strDrop trimmed 2) with
        | some width =>
          if 0 < width ∧ width ≤ env.MAX_WIDTH then
            { candidate with width := some (.num (width : ℚ)) }
          else candidate
        | none => candidate
      else if strStartsWith trimmed "h_" then
        match jsParseInt (strDrop trimmed 2) with
        | some height =>
          if 0 < height ∧ height ≤ env.MAX_HEIGHT then
            { candidate with height := some (.num (height : ℚ)) }
          else candidate
        | none => candidate
      else if strStartsWith trimmed "s_" then
        match sizeMatch (strDrop trimmed 2) with
        | some (w, h) =>
          if 0 < (w : Int) ∧ 0 < (h : Int)
              ∧ (w : Int) ≤ env.MAX_WIDTH ∧ (h : Int) ≤ env.MAX_HEIGHT then
            { candidate with
                width := some (.num ((w : Int) : ℚ)),
                height := some (.num ((h : Int) : ℚ)) }
          else candidate
        | none => candidate
      else if strStartsWith trimmed "f_" then
        let format := strDrop trimmed 2
        if format == "webp" || format == "jpeg" || format == "png"
            || format == "auto" then
          { candidate with format := some (.str format) }
        else candidate
      else if strStartsWith trimmed "q_" then
        match jsParseInt (strDrop trimmed 2) with
        | some quality =>
          if 1 ≤ quality ∧ quality ≤ 100 then
            { candidate with quality := some (.num (quality : ℚ)) }
          else candidate
        | none => candidate
      else candidate) {}

/-- The legacy createOptionsStringSchema: the tolerant per-key transform piped
into the same structural object schema. -/
def createOptionsStringSchema (env : EnvCfg) (optionsStr : String) :
    Except String ImageProxyOptions :=
  Validation.createImageProxyOptionsSchema env (optionsTransform env optionsStr)

/-- The legacy parseImageProxyOptions: run the schema and convert any failure
into HttpError 400. -/
def parseImageProxyOptions (optionsStr : String) (env : EnvCfg) :
    Except HttpErr ImageProxyOptions :=
  match createOptionsStringSchema env optionsStr with
  | .ok o => .ok o
  | .error m => .error ⟨"Invalid options: " ++ m, 400⟩

end Legacy

/-! ### Image processing: modular and legacy orchestrators -/

namespace ImageProcessing

/-- getImageBuffer from image-processing.ts (duplicated in the legacy file):
switch on the output format; webp and png ignore quality, jpeg uses the given
quality or 85 when undefined. -/
def getImageBuffer (sc : CodecScenario) (image : Img) (format : OutputFormat)
    (quality : Option Int) (cs : CodecState) :
    (Except Unit (List Nat)) × CodecState :=
  match format with
  | .webp => ph_get_bytes_webp sc image cs
  | .png => ph_get_bytes sc image cs
  | .jpeg =>
    match quality with
    | some q => ph_get_bytes_jpeg sc image q cs
    | none => ph_get_bytes_jpeg sc image 85 cs

/-- applyTransformations from image-processing.ts (the modular variant):
no resize when neither bound is requested or when the computed dimensions
equal the originals; otherwise resize. The input image is never freed here. -/
def applyTransformations (sc : CodecScenario) (image : Img)
    (options : ImageProxyOptions) (cs : CodecState) :
    (Except Unit Img) × CodecState :=
  if !jsTruthyInt options.width && !jsTruthyInt options.height then
    (.ok image, cs)
  else
    let dims := Utils.calculateDimensions image.width image.height
      (optQ options.width) (optQ options.height)
    if dims.1 == image.width && dims.2 == image.height then
      (.ok image, cs)
    else
      ph_resize sc image dims.1 dims.2 cs

/-- processImage from image-processing.ts (the modular variant): passthrough
when options.original; otherwise negotiate the format, decode, transform,
encode, free only the final image, and answer 200 with Content-Type
image/format plus the three passthrough cache headers. Every exception inside
the try block becomes HttpError 500 with the fixed message. -/
def processImage (sc : CodecScenario) (sourceResponse : Response)
    (options : ImageProxyOptions) (cs : CodecState) :
    (Except HttpErr Response) × CodecState :=
  let passCacheControl := (hGet sourceResponse.headers "cache-control").getD ""
  let passETag := (hGet sourceResponse.headers "etag").getD ""
  let passLastModified := (hGet sourceResponse.headers "last-modified").getD ""
  if options.original then
    (.ok ⟨200, "",
      [("Content-Type", (hGet sourceResponse.headers "content-type").getD ""),
       ("Cache-Control", passCacheControl),
       ("ETag", passETag),
       ("Last-Modified", passLastModified)],
      sourceResponse.body⟩, cs)
  else
    let outputFormat := Utils.determineOutputFormat options.format
      (hGet sourceResponse.headers "accept")
    match ph_decode sc cs with
    | (.error _, cs) => (.error ⟨"Failed to process image", 500⟩, cs)
    | (.ok photonImage, cs) =>
      match applyTransformations sc photonImage options cs with
      | (.error _, cs) => (.error ⟨"Failed to process image", 500⟩, cs)
      | (.ok processedImage, cs) =>
        match getImageBuffer sc processedImage outputFormat (some options.quality) cs with
        | (.error _, cs) => (.error ⟨"Failed to process image", 500⟩, cs)
        | (.ok outputBuffer, cs) =>
          let cs := ph_free processedImage cs
          (.ok ⟨200, "",
            [("Content-Type", "image/" ++ outputFormatStr outputFormat),
             ("Cache-Control", passCacheControl),
             ("ETag", passETag),
             ("Last-Modified", passLastModified)],
            .bytes outputBuffer⟩, cs)

end ImageProcessing

namespace Legacy

/-- The legacy applyTransformations: tracks a processedImage variable; after a
resize it frees processedImage only when it differs from the input image —
which never happens, since the single resize is the only transformation. -/
def applyTransformations (sc : CodecScenario) (image : Img)
    (options : ImageProxyOptions) (cs : CodecState) :
    (Except Unit Img) × CodecState :=
  let processedImage := image
  if jsTruthyInt options.width || jsTruthyInt options.height then
    let dims := Utils.calculateDimensions processedImage.width processedImage.height
      (optQ options.width) (optQ options.height)
    if !(dims.1 == processedImage.width) || !(dims.2 == processedImage.height) then
      match ph_resize sc processedImage dims.1 dims.2 cs with
      | (.error e, cs) => (.error e, cs)
      | (.ok resizedImage, cs) =>
        let cs := if processedImage.id ≠ image.id then ph_free processedImage cs else cs
        (.ok resizedImage, cs)
    else (.ok processedImage, cs)
  else (.ok processedImage, cs)

/-- The legacy processImage: passthrough when options.original; otherwise
decode (an inner catch converts a decode throw into HttpError 400, but the
outer catch below immediately replaces every error with HttpError 500),
transform and encode inside an inner try whose catch frees only the decoded
input image, free the processed image on success, and answer 200. The outer
catch turns every failure into HttpError 500 "Failed to process image". -/
def processImage (sc : CodecScenario) (sourceResponse : Response)
    (options : ImageProxyOptions) (cs : CodecState) :
    (Except HttpErr Response) × CodecState :=
  let contentType := (hGet sourceResponse.headers "content-type").getD ""
  if options.original then
    (.ok ⟨200, "",
      [("Content-Type", contentType),
       ("Cache-Control", (hGet sourceResponse.headers "cache-control").getD ""),
       ("ETag", (hGet sourceResponse.headers "etag").getD ""),
       ("Last-Modified", (hGet sourceResponse.headers "last-modified").getD "")],
      sourceResponse.body⟩, cs)
  else
    match ph_decode sc cs with
    | (.error _, cs) =>
      -- inner catch: throw HttpError 400 "Invalid or unsupported image format";
      -- the outer catch replaces it with the 500 below before it can escape
      (.error ⟨"Failed to process image", 500⟩, cs)
    | (.ok photonImage, cs) =>
      match applyTransformations sc photonImage options cs with
      | (.error _, cs) =>
        (.error ⟨"Failed to process image", 500⟩, ph_free photonImage cs)
      | (.ok processedImage, cs) =>
        let outputFormat := Utils.determineOutputFormat options.format
          (hGet sourceResponse.headers "accept")
        match ImageProcessing.getImageBuffer sc processedImage outputFormat
            (some options.quality) cs with
        | (.error _, cs) =>
          (.error ⟨"Failed to process image", 500⟩, ph_free photonImage cs)
        | (.ok outputBuffer, cs) =>
          let cs := ph_free processedImage cs
          (.ok ⟨200, "",
            [("Content-Type", "image/" ++ outputFormatStr outputFormat),
             ("Cache-Control", (hGet sourceResponse.headers "cache-control").getD ""),
             ("ETag", (hGet sourceResponse.headers "etag").getD ""),
             ("Last-Modified", (hGet sourceResponse.headers "last-modified").getD "")],
            .bytes outputBuffer⟩, cs)

end Legacy

/-! ### The request handler (index.ts fetch) -/

/-- The edge cache: entries keyed by request URL (cache.match matches on the
request URL). -/
abbrev CacheState := List (String × Response)

/-- cache.match. -/
def cacheMatch (c : CacheState) (url : String) : Option Response :=
  (c.find? (fun p => p.1 == url)).map Prod.snd

/-- cache.put: store the response for the URL, replacing any previous entry. -/
def cachePut (c : CacheState) (url : String) (r : Response) : CacheState :=
  (url, r) :: c.filter (fun p => p.1 != url)

/-- An exception reaching the handler's catch: either an HttpError or some
other Error carrying only a message. -/
inductive Thrown where
  | http (e : HttpErr)
  | err (message : String)

/-- The catch block of the fetch handler: HttpError keeps its status, any
other error maps to 500; the response is plain text. -/
def errorResponse : Thrown → Response
  | .http e => ⟨e.status, "", [("Content-Type", "text/plain")], .text e.message⟩
  | .err m => ⟨500, "", [("Content-Type", "text/plain")], .text m⟩

/-- Path matching for /{operations}/{sourceUrl}: the regex
caret slash ([^/]+) slash (.+) dollar on the pathname. -/
def matchProxyPath (path : String) : Option (String × String) :=
  if strStartsWith path "/" then
    match strSplitOn (strDrop path 1) "/" with
    | ops :: restParts =>
      let sourceUrl := String.intercalate "/" restParts
      if strIsEmpty ops || restParts.isEmpty || strIsEmpty sourceUrl then none
      else some (ops, sourceUrl)
    | [] => none
  else none

namespace Index

/-- The fetch handler from index.ts (the legacy file repeats it verbatim):
OPTIONS preflight, non-GET rejection, liveness routes, path parsing, domain
validation, options parsing, cache lookup, source fetch, image processing,
conditional cache store of a pre-CORS clone, and CORS header injection on the
fresh response. Inputs beyond the request are the codec scenario, the
outbound fetch collaborator, the environment and the current cache and codec
states; the result carries the updated cache and codec states. -/
def fetch (sc : CodecScenario) (net : String → Headers → Response)
    (env : EnvCfg) (cacheSt : CacheState) (request : Request)
    (cs : CodecState) : Response × CacheState × CodecState :=
  if request.method == "OPTIONS" then
    (⟨204, "",
      [("Access-Control-Allow-Origin", "*"),
       ("Access-Control-Allow-Methods", "GET, OPTIONS"),
       ("Access-Control-Allow-Headers", "Content-Type"),
       ("Access-Control-Max-Age", "86400")], .empty⟩, cacheSt, cs)
  else if !(request.method == "GET") then
    (⟨405, "", [("Content-Type", "text/plain;charset=UTF-8")],
      .text "Method Not Allowed"⟩, cacheSt, cs)
  else
    match parseURL request.url with
    | none => (errorResponse (.err "Invalid URL"), cacheSt, cs)
    | some url =>
      let path := url.pathname
      if path == "/" || path == "/health" then
        (⟨200, "", [("Content-Type", "text/plain;charset=UTF-8")],
          .text "Image Proxy Worker"⟩, cacheSt, cs)
      else
        match matchProxyPath path with
        | none =>
          (errorResponse (.http
            ⟨"Invalid URL format. Expected: /\x7boperations\x7d/\x7bsource_url\x7d", 400⟩),
            cacheSt, cs)
        | some (operationsStr, sourceUrl) =>
          if !Validation.validateDomain sourceUrl env.ALLOWED_DOMAINS then
            (errorResponse (.http ⟨"Domain not allowed", 403⟩), cacheSt, cs)
          else
            match Validation.parseImageProxyOptions operationsStr env with
            | .error e => (errorResponse (.http e), cacheSt, cs)
            | .ok options =>
              match cacheMatch cacheSt request.url with
              | some response => (response, cacheSt, cs)
              | none =>
                match Utils.fetchSourceImage net sourceUrl request with
                | .error e => (errorResponse (.http e), cacheSt, cs)
                | .ok sourceResponse =>
                  match ImageProcessing.processImage sc sourceResponse options cs with
                  | (.error e, cs) => (errorResponse (.http e), cacheSt, cs)
                  | (.ok response, cs) =>
                    let cacheSt := if respOk response then
                        cachePut cacheSt request.url response
                      else cacheSt
                    (Utils.addCorsHeaders response, cacheSt, cs)

end Index

/-! ### Concrete scenarios used by the claim theorems -/

/-- An environment with an empty allow-list (allow all) and 4000 by 4000
maxima, as in the repository's example configuration. -/
def envOpen : EnvCfg := ⟨[], 4000, 4000⟩

/-- A codec whose decode rejects the bytes (undecodable source image). -/
def scDecodeFail : CodecScenario := ⟨false, 0, 0, true, true⟩

/-- A codec that decodes an 800 by 600 image and succeeds everywhere. -/
def scHappy : CodecScenario := ⟨true, 800, 600, true, true⟩

/-- A 200 image/jpeg source response. -/
def srcJpeg : Response := ⟨200, "OK", [("content-type", "image/jpeg")], .bytes [7]⟩

/-- A 200 image/png source response with an ETag. -/
def srcPng : Response := ⟨200, "OK", [("content-type", "image/png"), ("etag", "abc")], .bytes [9]⟩

/-- Default options (no token set anything). -/
def optsDefault : ImageProxyOptions := ⟨none, none, .auto, 85, false⟩

/-- Options requesting a 400 pixel wide resize. -/
def optsW400 : ImageProxyOptions := ⟨some 400, none, .auto, 85, false⟩

/-- Options with original set and every other field deliberately non-default. -/
def optsOriginal : ImageProxyOptions := ⟨some 100, some 50, .webp, 50, true⟩

/-- An outbound fetch collaborator always answering a 200 image/jpeg. -/
def netJpeg : String → Headers → Response := fun _ _ =>
  ⟨200, "", [("content-type", "image/jpeg"), ("cache-control", "max-age=60")], .bytes [1, 2, 3]⟩

/-- A proxied GET request for the passthrough route. -/
def reqProxy : Request := ⟨"GET", "https://proxy.dev/_/https://img.test/a.png", []⟩

/-- First run of the handler against an empty cache: a miss that processes the
source and stores a pre-CORS clone in the cache. -/
def fetchRun1 : Response × CacheState × CodecState :=
  Index.fetch scHappy netJpeg envOpen [] reqProxy csInit

/-- Second run of the same request against the cache produced by the first
run: a cache hit. -/
def fetchRun2 : Response × CacheState × CodecState :=
  Index.fetch scHappy netJpeg envOpen fetchRun1.2.1 reqProxy csInit
section HeaderLemmas

/-- find? commutes with a filter that keeps everything the find? predicate
accepts. -/
theorem find?_filter_of_imp {α : Type} (l : List α) (p q : α → Bool)
    (h : ∀ x, p x = true → q x = true) :
    (l.filter q).find? p = l.find? p := by
  induction l with
  | nil => rfl
  | cons a l ih =>
    by_cases hq : q a = true
    · by_cases hp : p a = true
      · simp [List.filter_cons, hq, List.find?, hp]
      · simp only [List.filter_cons, hq, if_true, List.find?, hp]
        simpa [List.find?, hp] using ih
    · have hp : p a = false := by
        cases hpa : p a with
        | false => rfl
        | true => exact absurd (h a hpa) hq
      simp only [List.filter_cons, hq, if_false, List.find?, hp]
      simpa [List.find?, hp] using ih

/-- Reading back through hSet: the set name returns the new value, any other
name is untouched. -/
theorem hGet_hSet (h : Headers) (n v m : String) :
    hGet (hSet h n v) m =
      if strLower m = strLower n then some v else hGet h m := by
  unfold hGet hSet
  by_cases hc : strLower m = strLower n
  · simp [List.find?, hc]
  · have hne : (strLower n == strLower m) = false := by
      simp only [beq_eq_false_iff_ne, ne_eq]
      intro he
      exact hc he.symm
    simp only [List.find?, hne, hc, if_false]
    rw [find?_filter_of_imp]
    intro x hx
    simp only [beq_iff_eq] at hx
    simp only [bne_iff_ne, ne_eq]
    intro hxn
    exact hc (hxn ▸ hx).symm

/-- The header table of addCorsHeaders, as seen through get: the four fixed
headers have their fixed values, everything else is unchanged. -/
theorem hGet_addCorsHeaders (r : Response) (name : String) :
    hGet (Utils.addCorsHeaders r).headers name =
      if strLower name = "x-content-type-options" then some "nosniff"
      else if strLower name = "access-control-allow-headers" then some "Content-Type"
      else if strLower name = "access-control-allow-methods" then some "GET, OPTIONS"
      else if strLower name = "access-control-allow-origin" then some "*"
      else hGet r.headers name := by
  show hGet (hSet (hSet (hSet (hSet r.headers
      "Access-Control-Allow-Origin" "*")
      "Access-Control-Allow-Methods" "GET, OPTIONS")
      "Access-Control-Allow-Headers" "Content-Type")
      "X-Content-Type-Options" "nosniff") name = _
  rw [hGet_hSet, hGet_hSet, hGet_hSet, hGet_hSet]
  have e1 : strLower "X-Content-Type-Options" = "x-content-type-options" := rfl
  have e2 : strLower "Access-Control-Allow-Headers" = "access-control-allow-headers" := rfl
  have e3 : strLower "Access-Control-Allow-Methods" = "access-control-allow-methods" := rfl
  have e4 : strLower "Access-Control-Allow-Origin" = "access-control-allow-origin" := rfl
  rw [e1, e2, e3, e4]

end HeaderLemmas

/-! ### Claim theorems -/

/-- Claim C10: addCorsHeaders returns a response with identical status,
statusText and body, and a header table equal to the input table except that
exactly the four CORS and nosniff headers are set to their fixed values;
every other header name reads back unchanged. -/
theorem addCorsHeaders_frame (response : Response) (name : String) :
    (Utils.addCorsHeaders response).status = response.status ∧
    (Utils.addCorsHeaders response).statusText = response.statusText ∧
    (Utils.addCorsHeaders response).body = response.body ∧
    hGet (Utils.addCorsHeaders response).headers name =
      (if strLower name = "access-control-allow-origin" then some "*"
       else if strLower name = "access-control-allow-methods" then some "GET, OPTIONS"
       else if strLower name = "access-control-allow-headers" then some "Content-Type"
       else if strLower name = "x-content-type-options" then some "nosniff"
       else hGet response.headers name) := by
  refine ⟨rfl, rfl, rfl, ?_⟩
  rw [hGet_addCorsHeaders]
  by_cases h1 : strLower name = "x-content-type-options" <;>
  by_cases h2 : strLower name = "access-control-allow-headers" <;>
  by_cases h3 : strLower name = "access-control-allow-methods" <;>
  by_cases h4 : strLower name = "access-control-allow-origin" <;>
  simp_all

/-- Claim C8: with original set, processImage answers 200 with the source
body unchanged, Content-Type taken from the source, and the three cache
headers copied verbatim with empty-string fallbacks; the codec state is
untouched (no codec call is made) and no option field other than original
influences the result. -/
theorem processImage_original_passthrough (sc : CodecScenario)
    (sourceResponse : Response) (options : ImageProxyOptions) (cs : CodecState)
    (h : options.original = true) :
    ImageProcessing.processImage sc sourceResponse options cs =
      (.ok ⟨200, "",
        [("Content-Type", (hGet sourceResponse.headers "content-type").getD ""),
         ("Cache-Control", (hGet sourceResponse.headers "cache-control").getD ""),
         ("ETag", (hGet sourceResponse.headers "etag").getD ""),
         ("Last-Modified", (hGet sourceResponse.headers "last-modified").getD "")],
        sourceResponse.body⟩, cs) := by
  simp only [ImageProcessing.processImage, h, if_true]

/-- Witness for C8 at a concrete source and options record whose non-original
fields are all non-default, showing they do not affect the passthrough. -/
theorem processImage_original_passthrough_witness :
    optsOriginal.original = true ∧
    ImageProcessing.processImage scHappy srcPng optsOriginal csInit =
      (.ok ⟨200, "",
        [("Content-Type", (hGet srcPng.headers "content-type").getD ""),
         ("Cache-Control", (hGet srcPng.headers "cache-control").getD ""),
         ("ETag", (hGet srcPng.headers "etag").getD ""),
         ("Last-Modified", (hGet srcPng.headers "last-modified").getD "")],
        srcPng.body⟩, csInit) :=
  ⟨rfl, processImage_original_passthrough scHappy srcPng optsOriginal csInit rfl⟩

/-- Claim C2 (code bug): on an undecodable source with original not set, the
modular processImage rejects with the generic HttpError 500 "Failed to
process image", not the claimed HttpError 400 "Invalid or unsupported image
format" — the modular variant has no 400 path at all, and the legacy
variant's inner 400 throw is swallowed by its own outer catch and replaced
with the same 500. This theorem evaluates the code at the failing input. -/
theorem processImage_decode_failure_gives_500 :
    ImageProcessing.processImage scDecodeFail srcPng optsDefault csInit =
      (.error ⟨"Failed to process image", 500⟩, ⟨0, [], ["new_from_byteslice"]⟩) := by
  decide

/-- Claim C5 (code bug): on the successful resize path, the legacy
processImage frees only the resized image; the originally decoded image
(handle 0) is still live when processImage returns — the prior decoded image
is neither released immediately after the resize nor before returning, so
the release-on-every-path discipline fails. The final codec state shows the
leak: live = [0]. -/
theorem legacy_processImage_leaks_decoded_image :
    (Legacy.processImage scHappy srcJpeg optsW400 csInit).2 =
      ⟨2, [0], ["new_from_byteslice", "resize", "get_bytes_jpeg", "free"]⟩ := by
  have hat : Legacy.applyTransformations scHappy ⟨0, 800, 600⟩
      ⟨some 400, none, .auto, 85, false⟩ ⟨1, [0], ["new_from_byteslice"]⟩ =
      (.ok ⟨1, 400, 300⟩, ⟨2, [0, 1], ["new_from_byteslice", "resize"]⟩) := by
    have hcd : Utils.calculateDimensions (800 : ℚ) (600 : ℚ)
        (optQ (some 400)) (optQ none) = (400, 300) := by
      simp only [optQ]
      norm_num [Utils.calculateDimensions, jsTruthyQ, jsRound]
    simp only [Legacy.applyTransformations]
    rw [hcd]
    decide
  have hdec : ph_decode scHappy csInit =
      (.ok ⟨0, 800, 600⟩, ⟨1, [0], ["new_from_byteslice"]⟩) := by decide
  simp only [Legacy.processImage, srcJpeg, optsW400]
  rw [hdec]
  simp only []
  rw [hat]
  decide

/-- Counterexample to claim C3: the modular parseImageProxyOptions does not
silently drop w_99999 under MAX_WIDTH 4000 — the raw value is forwarded to
the structural schema, which fails the whole parse with HttpError 400. -/
theorem parseImageProxyOptions_rejects_out_of_range :
    Validation.parseImageProxyOptions "w_99999" envOpen =
      .error ⟨"Invalid options: Number must be less than or equal to max", 400⟩ := by
  decide

/-- Claim C3 (amended): in the legacy parser the per-key validation silently
drops a recognized key whose value fails its own check — w_99999 under
MAX_WIDTH 4000 parses successfully with the width absent (every other field
at its default). -/
theorem legacy_parse_drops_invalid_value_silently :
    Legacy.parseImageProxyOptions "w_99999" envOpen =
      .ok ⟨none, none, .auto, 85, false⟩ := by
  decide

/-- Claim C6 (code bug): the modular tokenizer recognizes only the keys w, h,
f, q — an s_200x200 token is treated as an unknown key and silently ignored,
so the parsed options carry no width and no height (the legacy parser and the
README both give s_WxH the documented set-both-dimensions meaning). This
theorem evaluates the modular parser at the failing input. -/
theorem parseImageProxyOptions_ignores_size_token :
    Validation.parseImageProxyOptions "s_200x200" envOpen =
      .ok ⟨none, none, .auto, 85, false⟩ := by
  decide

/-- Claim C9: calculateDimensions can return 0 for a dimension on positive
input: with original 1000 by 1 and target width 100 (within a 4000 maximum),
the derived height rounds to 0. -/
theorem calculateDimensions_can_return_zero :
    ∃ ow oh tw : ℚ, 0 < ow ∧ 0 < oh ∧ 0 < tw ∧ tw ≤ 4000 ∧
      (Utils.calculateDimensions ow oh (some tw) none).1 = tw ∧
      (Utils.calculateDimensions ow oh (some tw) none).2 = 0 := by
  have h : Utils.calculateDimensions 1000 1 (some 100) none = (100, 0) := by
    norm_num [Utils.calculateDimensions, jsTruthyQ, jsRound]
  exact ⟨1000, 1, 100, by norm_num, by norm_num, by norm_num, by norm_num,
    by rw [h], by rw [h]⟩

/-- Rounding bound: when x is at most the natural number n, the JS rounding
of x is still at most n. -/
theorem jsRound_le_of_le {x : ℚ} {n : ℕ} (hx : x ≤ n) : jsRound x ≤ (n : ℚ) := by
  unfold jsRound
  have h1 : (⌊x + 1/2⌋ : Int) < (n : Int) + 1 := by
    apply Int.floor_lt.mpr
    push_cast
    linarith
  have h2 : (⌊x + 1/2⌋ : Int) ≤ (n : Int) := by omega
  exact_mod_cast h2

/-- Claim C7: with both positive integer targets given, calculateDimensions
returns dimensions bounded by the requested box on both axes. -/
theorem calculateDimensions_fits_box (ow oh tw th : ℕ)
    (how : 0 < ow) (hoh : 0 < oh) (htw : 0 < tw) (hth : 0 < th) :
    (Utils.calculateDimensions ow oh (some tw) (some th)).1 ≤ (tw : ℚ) ∧
    (Utils.calculateDimensions ow oh (some tw) (some th)).2 ≤ (th : ℚ) := by
  have howq : (0 : ℚ) < ow := by exact_mod_cast how
  have hohq : (0 : ℚ) < oh := by exact_mod_cast hoh
  have htwq : (0 : ℚ) < tw := by exact_mod_cast htw
  have hthq : (0 : ℚ) < th := by exact_mod_cast hth
  have htwne : ((tw : ℚ)) ≠ 0 := ne_of_gt htwq
  have hthne : ((th : ℚ)) ≠ 0 := ne_of_gt hthq
  have hj1 : jsTruthyQ (some (tw : ℚ)) = true := by simp [jsTruthyQ, htwne]
  have hj2 : jsTruthyQ (some (th : ℚ)) = true := by simp [jsTruthyQ, hthne]
  unfold Utils.calculateDimensions
  simp only [hj1, hj2, Bool.not_true, Bool.false_and, Bool.and_self, Option.getD,
    if_false, if_true, Bool.false_eq_true, ite_false, ite_true]
  by_cases hcmp : (ow : ℚ) / (oh : ℚ) > (tw : ℚ) / (th : ℚ)
  · simp only [hcmp, ite_true, if_true]
    refine ⟨le_refl _, ?_⟩
    apply jsRound_le_of_le
    have hlt : (tw : ℚ) * oh < (ow : ℚ) * th := (div_lt_div_iff₀ hthq hohq).mp hcmp
    rw [div_div_eq_mul_div]
    rw [div_le_iff₀ howq]
    nlinarith [hlt]
  · simp only [hcmp, ite_false, if_false]
    refine ⟨?_, le_refl _⟩
    apply jsRound_le_of_le
    have hle : (ow : ℚ) * th ≤ (tw : ℚ) * oh := by
      have := not_lt.mp hcmp
      exact (div_le_div_iff₀ hohq hthq).mp this
    rw [mul_div_assoc']
    rw [div_le_iff₀ hohq]
    nlinarith [hle]

/-- Witness for C7 at the 800 by 600 original with a 400 by 300 box. -/
theorem calculateDimensions_fits_box_witness :
    ((0 : ℕ) < 800 ∧ (0 : ℕ) < 600 ∧ (0 : ℕ) < 400 ∧ (0 : ℕ) < 300) ∧
    ((Utils.calculateDimensions ((800 : ℕ) : ℚ) ((600 : ℕ) : ℚ)
        (some ((400 : ℕ) : ℚ)) (some ((300 : ℕ) : ℚ))).1 ≤ ((400 : ℕ) : ℚ) ∧
     (Utils.calculateDimensions ((800 : ℕ) : ℚ) ((600 : ℕ) : ℚ)
        (some ((400 : ℕ) : ℚ)) (some ((300 : ℕ) : ℚ))).2 ≤ ((300 : ℕ) : ℚ)) :=
  ⟨⟨by norm_num, by norm_num, by norm_num, by norm_num⟩,
   calculateDimensions_fits_box 800 600 400 300
     (by norm_num) (by norm_num) (by norm_num) (by norm_num)⟩

/-- The allow-list entry matcher, spelled out as in the spec sentence. -/
theorem domainEntryMatches_iff (hostname d : String) :
    Validation.domainEntryMatches hostname d = true ↔
      ((strStartsWith d "*." = true ∧
          (hostname = strDrop d 2 ∨
           strEndsWith hostname ("." ++ strDrop d 2) = true)) ∨
       (strStartsWith d "*." = false ∧ hostname = d)) := by
  unfold Validation.domainEntryMatches
  by_cases hs : strStartsWith d "*." = true
  · simp [hs]
  · simp only [Bool.not_eq_true] at hs
    simp [hs]

/-- Claim C4: validateDomain is true exactly when the URL parses and either
the normalized allow-list (trimmed, lower-cased, empties dropped) is empty or
some normalized entry matches the lower-cased hostname — exactly for a
wildcard entry, equality with the suffix or a dot-suffix match, otherwise
plain equality. -/
theorem validateDomain_spec (url : String) (allowedDomains : List String) :
    Validation.validateDomain url allowedDomains = true ↔
      ∃ u, parseURL url = some u ∧
        ((allowedDomains.map (fun d => strLower (strTrim d))).filter
            (fun d => decide (d.data.length > 0)) = [] ∨
         ∃ d ∈ (allowedDomains.map (fun d => strLower (strTrim d))).filter
            (fun d => decide (d.data.length > 0)),
           ((strStartsWith d "*." = true ∧
               (strLower u.hostname = strDrop d 2 ∨
                strEndsWith (strLower u.hostname) ("." ++ strDrop d 2) = true)) ∨
            (strStartsWith d "*." = false ∧ strLower u.hostname = d))) := by
  unfold Validation.validateDomain
  cases hp : parseURL url with
  | none => simp [hp]
  | some u =>
    simp only [hp, Option.some.injEq, exists_eq_left']
    by_cases hd : (allowedDomains.map (fun d => strLower (strTrim d))).filter
        (fun d => decide (d.data.length > 0)) = []
    · rw [hd]
      simp
    · rw [if_neg (by simpa [List.length_eq_zero] using hd)]
      rw [List.any_eq_true]
      constructor
      · rintro ⟨d, hdmem, hdm⟩
        exact Or.inr ⟨d, hdmem, (domainEntryMatches_iff _ _).mp hdm⟩
      · rintro (hempty | ⟨d, hdmem, hdm⟩)
        · exact absurd hempty hd
        · exact ⟨d, hdmem, (domainEntryMatches_iff _ _).mpr hdm⟩

/-- Every response built by the handler's catch block is text/plain, never an
image response. -/
theorem errorResponse_ct_not_image (t : Thrown) :
    strStartsWith ((hGet (errorResponse t).headers "content-type").getD "")
      "image/" = false := by
  cases t <;> rfl

/-- Case analysis on the fetch handler: the returned response is a cache hit
returned verbatim, a fresh response wrapped in addCorsHeaders, or one of the
fixed non-image responses (preflight, 405, liveness, catch-block errors). -/
theorem fetch_result_shape (sc : CodecScenario) (net : String → Headers → Response)
    (env : EnvCfg) (cacheSt : CacheState) (request : Request) (cs : CodecState) :
    (∃ r, cacheMatch cacheSt request.url = some r ∧
      (Index.fetch sc net env cacheSt request cs).1 = r) ∨
    (∃ r, (Index.fetch sc net env cacheSt request cs).1 = Utils.addCorsHeaders r) ∨
    strStartsWith ((hGet (Index.fetch sc net env cacheSt request cs).1.headers
      "content-type").getD "") "image/" = false := by
  simp only [Index.fetch]
  repeat' split
  all_goals first
    | exact Or.inr (Or.inr (errorResponse_ct_not_image _))
    | exact Or.inr (Or.inr rfl)
    | exact Or.inl ⟨_, by assumption, rfl⟩
    | exact Or.inr (Or.inl ⟨_, rfl⟩)

/-- addCorsHeaders pins Access-Control-Allow-Origin. -/
theorem hGet_addCors_origin (r : Response) :
    hGet (Utils.addCorsHeaders r).headers "Access-Control-Allow-Origin" = some "*" := by
  rw [hGet_addCorsHeaders]; rfl

/-- addCorsHeaders pins Access-Control-Allow-Methods. -/
theorem hGet_addCors_methods (r : Response) :
    hGet (Utils.addCorsHeaders r).headers "Access-Control-Allow-Methods" =
      some "GET, OPTIONS" := by
  rw [hGet_addCorsHeaders]; rfl

/-- addCorsHeaders pins Access-Control-Allow-Headers. -/
theorem hGet_addCors_allowed_headers (r : Response) :
    hGet (Utils.addCorsHeaders r).headers "Access-Control-Allow-Headers" =
      some "Content-Type" := by
  rw [hGet_addCorsHeaders]; rfl

/-- addCorsHeaders pins X-Content-Type-Options. -/
theorem hGet_addCors_nosniff (r : Response) :
    hGet (Utils.addCorsHeaders r).headers "X-Content-Type-Options" =
      some "nosniff" := by
  rw [hGet_addCorsHeaders]; rfl

/-- Claim C1 (amended): every status-200 image response the handler produces
on the cache-miss (fresh processing) path carries the four fixed headers; the
cache-match path is excluded, because a cached response is returned exactly
as it was stored, and the handler stores the pre-CORS clone. -/
theorem fetch_fresh_success_image_has_cors (sc : CodecScenario)
    (net : String → Headers → Response) (env : EnvCfg) (cacheSt : CacheState)
    (request : Request) (cs : CodecState)
    (hmiss : cacheMatch cacheSt request.url = none)
    (h200 : (Index.fetch sc net env cacheSt request cs).1.status = 200)
    (himg : strStartsWith ((hGet (Index.fetch sc net env cacheSt request cs).1.headers
      "content-type").getD "") "image/" = true) :
    hGet (Index.fetch sc net env cacheSt request cs).1.headers
      "Access-Control-Allow-Origin" = some "*" ∧
    hGet (Index.fetch sc net env cacheSt request cs).1.headers
      "Access-Control-Allow-Methods" = some "GET, OPTIONS" ∧
    hGet (Index.fetch sc net env cacheSt request cs).1.headers
      "Access-Control-Allow-Headers" = some "Content-Type" ∧
    hGet (Index.fetch sc net env cacheSt request cs).1.headers
      "X-Content-Type-Options" = some "nosniff" := by
  rcases fetch_result_shape sc net env cacheSt request cs with
    ⟨r, hm, _⟩ | ⟨r, hr⟩ | hno
  · rw [hmiss] at hm
    exact absurd hm (by simp)
  · rw [hr]
    exact ⟨hGet_addCors_origin r, hGet_addCors_methods r,
      hGet_addCors_allowed_headers r, hGet_addCors_nosniff r⟩
  · rw [hno] at himg
    exact absurd himg (by decide)

/-- Witness for the amended C1 at the concrete first run: an empty cache, a
passthrough request and a jpeg source. -/
theorem fetch_fresh_success_image_has_cors_witness :
    (cacheMatch ([] : CacheState) reqProxy.url = none ∧
     (Index.fetch scHappy netJpeg envOpen [] reqProxy csInit).1.status = 200 ∧
     strStartsWith ((hGet (Index.fetch scHappy netJpeg envOpen [] reqProxy
       csInit).1.headers "content-type").getD "") "image/" = true) ∧
    (hGet (Index.fetch scHappy netJpeg envOpen [] reqProxy csInit).1.headers
      "Access-Control-Allow-Origin" = some "*" ∧
     hGet (Index.fetch scHappy netJpeg envOpen [] reqProxy csInit).1.headers
      "Access-Control-Allow-Methods" = some "GET, OPTIONS" ∧
     hGet (Index.fetch scHappy netJpeg envOpen [] reqProxy csInit).1.headers
      "Access-Control-Allow-Headers" = some "Content-Type" ∧
     hGet (Index.fetch scHappy netJpeg envOpen [] reqProxy csInit).1.headers
      "X-Content-Type-Options" = some "nosniff") :=
  ⟨⟨by decide, by decide, by decide⟩,
   fetch_fresh_success_image_has_cors scHappy netJpeg envOpen [] reqProxy csInit
     (by decide) (by decide) (by decide)⟩

/-- Counterexample to claim C1 as stated: running the same passthrough
request twice, the second run is served from the edge-cache match path with
status 200 and an image content type, yet none of the four headers is
present — the handler cached the pre-CORS clone and returns a hit verbatim. -/
theorem fetch_cache_hit_missing_cors :
    fetchRun2.1.status = 200 ∧
    strStartsWith ((hGet fetchRun2.1.headers "content-type").getD "")
      "image/" = true ∧
    hGet fetchRun2.1.headers "Access-Control-Allow-Origin" = none ∧
    hGet fetchRun2.1.headers "Access-Control-Allow-Methods" = none ∧
    hGet fetchRun2.1.headers "Access-Control-Allow-Headers" = none ∧
    hGet fetchRun2.1.headers "X-Content-Type-Options" = none := by
  decide
